import Mathlib

/-!
Verification development for the dotfiles synchronization engine
(src/sync.py).  The Python source is shallowly embedded: pure helpers
(home_path, the state store, the chmod mode computation, message
formatting) become Lean functions over lists of characters and natural
numbers; the effectful per-entry pipeline of main() becomes a total
function from an explicit environment (outcomes of network, filesystem,
and subprocess calls) to a step result that records the outcome, the
message, the updated installation state, and the ordered trace of side
effects performed.
-/

/-- Drops leading whitespace characters, the building block of the
embedding of the Python str.strip method. -/
def dropLeadingWs : List Char → List Char
  | [] => []
  | c :: cs => if c.isWhitespace then dropLeadingWs cs else c :: cs

/-- Embedding of the Python str.strip method (no arguments): removes
whitespace from both ends of the string. -/
def pyStrip (s : String) : String :=
  String.mk ((dropLeadingWs (dropLeadingWs s.data).reverse).reverse)

/-- Splits a character list on runs of whitespace, accumulating the
current word in reverse; building block of str.split with no separator. -/
def wsSplitAux : List Char → List Char → List (List Char)
  | [], acc => if acc.isEmpty then [] else [acc.reverse]
  | c :: cs, acc =>
    if c.isWhitespace then
      if acc.isEmpty then wsSplitAux cs [] else acc.reverse :: wsSplitAux cs []
    else wsSplitAux cs (c :: acc)

/-- Embedding of the Python str.split method with no separator: splits on
runs of whitespace and never returns empty words. -/
def pySplitWs (s : String) : List String :=
  (wsSplitAux s.data []).map String.mk

/-- Embedding of the Python str.startswith method. -/
def pyStartswith (s pre : String) : Bool :=
  pre.data.isPrefixOf s.data

/-- Embedding of the Python str.endswith method. -/
def pyEndswith (s suf : String) : Bool :=
  suf.data.isSuffixOf s.data

/-- Embedding of os.path.isabs for POSIX paths: true when the path starts
with a slash. -/
def os_isabs (p : String) : Bool :=
  pyStartswith p "/"

/-- Embedding of the two-argument os.path.join for POSIX paths. -/
def posixJoin (a b : String) : String :=
  if pyStartswith b "/" then b
  else if a = "" || pyEndswith a "/" then a ++ b
  else a ++ "/" ++ b

/-- The tilde character, written by code point to keep the file free of
character literals. -/
def tildeChar : Char := Char.ofNat 126

/-- Replaces the first occurrence of a character in a character list by a
replacement list; embedding of the Python str.replace method with count 1
for a one-character needle. -/
def replaceFirstChar : List Char → Char → List Char → List Char
  | [], _, _ => []
  | x :: xs, c, r => if x = c then r ++ xs else x :: replaceFirstChar xs c r

/-- Embedding of os.path.expanduser, with the home directory passed
explicitly: a bare tilde or a tilde-slash head is expanded, anything else
is returned unchanged. -/
def expanduser (home p : String) : String :=
  if p = "~" then home
  else if pyStartswith p "~/" then home ++ String.mk p.data.tail
  else p

/-- Embedding of home_path from src/sync.py: expand the prefix, then
replace a leading tilde, or join a relative path under the prefix, or
keep an absolute path unchanged. -/
def home_path (home target_path pfx : String) : String :=
  let base := expanduser home pfx
  if pyStartswith target_path "~" then
    String.mk (replaceFirstChar target_path.data tildeChar base.data)
  else if !(os_isabs target_path) then posixJoin base target_path
  else target_path

/-- The four shell profile files inspected by check_if_sourced in
src/sync.py. -/
def shell_profiles : List String :=
  [".bashrc", ".zshrc", ".profile", ".bash_profile"]

/-- Filesystem view consumed by the autostart verifier: which profile
files exist, which can be read, their lines, and a canonicalization
oracle combining os.path.expanduser and os.path.realpath (none models a
FileNotFoundError raised while resolving). -/
structure ProfileFS where
  profExists : String → Bool
  readable : String → Bool
  profLines : String → List String
  canon : String → Option String

/-- Per-line test of check_if_sourced from src/sync.py: strip the line,
ignore blank lines and comments, split on whitespace, require at least
two tokens with the first being the word source or a dot, then resolve
the second token and compare canonical paths. -/
def lineWired (canon : String → Option String) (canonTarget rawLine : String) : Bool :=
  let line := pyStrip rawLine
  if line = "" then false
  else if pyStartswith line "#" then false
  else
    match pySplitWs line with
    | tok :: pathTok :: _ =>
      if tok = "source" || tok = "." then
        match canon pathTok with
        | some c => c = canonTarget
        | none => false
      else false
    | _ => false

/-- Embedding of check_if_sourced from src/sync.py: scan the four profile
files, skipping missing or unreadable ones, and report whether any line
sources the target by canonical path equality. -/
def check_if_sourced (fs : ProfileFS) (canonTarget : String) : Bool :=
  shell_profiles.any fun name =>
    fs.profExists name && fs.readable name &&
      (fs.profLines name).any (lineWired fs.canon canonTarget)

/-- Modelled from the spec: a line wires the script only when it parses
as a two-token source or dot directive, that is, splitting on whitespace
yields exactly two tokens. -/
def specLineTwoToken (canon : String → Option String) (canonTarget rawLine : String) : Bool :=
  let line := pyStrip rawLine
  let parts := pySplitWs line
  (line != "") && !(pyStartswith line "#") &&
    (parts.length = 2 : Bool) &&
    ((parts.headD "" = "source" : Bool) || (parts.headD "" = "." : Bool)) &&
    (match canon (parts.getD 1 "") with
     | some c => (c = canonTarget : Bool)
     | none => false)

/-- Modelled from the spec, amended: same as the two-token rule but
requiring at least two tokens, with the directive word and the path read
from the first two tokens. -/
def specLineMinTwo (canon : String → Option String) (canonTarget rawLine : String) : Bool :=
  let line := pyStrip rawLine
  let parts := pySplitWs line
  (line != "") && !(pyStartswith line "#") &&
    (decide (2 ≤ parts.length)) &&
    ((parts.headD "" = "source" : Bool) || (parts.headD "" = "." : Bool)) &&
    (match canon (parts.getD 1 "") with
     | some c => (c = canonTarget : Bool)
     | none => false)

/-- Modelled from the spec: the verifier reports the script wired when
some existing, readable profile holds a two-token sourcing line for it. -/
def specWiredTwoToken (fs : ProfileFS) (canonTarget : String) : Bool :=
  shell_profiles.any fun name =>
    fs.profExists name && fs.readable name &&
      (fs.profLines name).any (specLineTwoToken fs.canon canonTarget)

/-- Modelled from the spec, amended: as specWiredTwoToken but accepting
lines with two or more tokens. -/
def specWiredMinTwo (fs : ProfileFS) (canonTarget : String) : Bool :=
  shell_profiles.any fun name =>
    fs.profExists name && fs.readable name &&
      (fs.profLines name).any (specLineMinTwo fs.canon canonTarget)

/-- Actions performed by fetch_from_git in src/sync.py, in order. -/
inductive GitAction where
  | fetchRemote
  | hardReset (ref : String)
  | submoduleUpdate
  | rmTree
  | cloneShallow (url branchName : String) (depth : Nat) (recurseSubmodules : Bool)
  deriving DecidableEq, Repr

/-- Embedding of fetch_from_git from src/sync.py as the ordered list of
git and filesystem actions it performs on its success path, driven by
whether the target exists and whether it holds a .git directory. -/
def fetch_from_git (url target branchName : String) (submodules : Bool)
    (targetExists hasGitDir : Bool) : List GitAction :=
  if targetExists && hasGitDir then
    [GitAction.fetchRemote, GitAction.hardReset ("origin/" ++ branchName)] ++
      (if submodules then [GitAction.submoduleUpdate] else [])
  else
    (if targetExists then [GitAction.rmTree] else []) ++
      [GitAction.cloneShallow url branchName 1 submodules]

/-- Durable content of the installation state file: missing, present but
not valid JSON, or parsed to a list of path strings. -/
inductive StateFile where
  | missing
  | unparsable
  | parsed (paths : List String)
  deriving DecidableEq

/-- Embedding of the state loading block of main in src/sync.py: a
missing or unparsable store yields the empty set, a parsed list becomes a
set of paths. -/
def loadState : StateFile → Finset String
  | StateFile.missing => (∅ : Finset String)
  | StateFile.unparsable => (∅ : Finset String)
  | StateFile.parsed l => l.toFinset

/-- Embedding of the state saving block of main in src/sync.py: the set
is serialized as the list of its members (the order of list(set) is
arbitrary in the source; the embedding fixes the sorted order), replacing
the prior file. -/
def saveState (s : Finset String) : StateFile :=
  StateFile.parsed (s.sort (· ≤ ·))

/-- The run-after field of a manifest entry: a single command string or
an ordered list of commands. -/
inductive RunAfterVal where
  | one (c : String)
  | many (cs : List String)
  deriving DecidableEq

/-- Normalization performed by main in src/sync.py: a lone string becomes
a one-element command list. -/
def normalizeRA : RunAfterVal → List String
  | RunAfterVal.one c => [c]
  | RunAfterVal.many cs => cs

/-- The timeout field of a manifest entry: the literal word none, or a
number of seconds. -/
inductive TimeoutVal where
  | noneLit
  | secs (n : Int)
  deriving DecidableEq

/-- Effective per-entry timeout computed by main in src/sync.py: the
entry override when present (none meaning unbounded), else the
process-wide default. -/
def effTimeout : Option TimeoutVal → Int → Option Int
  | Option.none, dt => some dt
  | some TimeoutVal.noneLit, _ => Option.none
  | some (TimeoutVal.secs n), _ => some n

/-- One manifest entry, with the defaults main in src/sync.py applies
when a key is absent. -/
structure Entry where
  path : String
  source : String := "repo"
  url : String := ""
  branchName : String := "main"
  exec : Bool := false
  idempotent : Bool := false
  runAfter : Option RunAfterVal := Option.none
  timeout : Option TimeoutVal := Option.none
  autostart : Bool := false

/-- Outcome of one subprocess.run call for a post-install command:
success, nonzero exit with captured output, missing executable, timeout,
or any other exception. -/
inductive CmdResult where
  | success (stdout stderr : String)
  | exitFail (returncode : Int) (stdout stderr : String)
  | notFound
  | timedOut
  | otherErr (emsg : String)
  deriving DecidableEq

/-- True exactly on the success constructor. -/
def isSuccess : CmdResult → Bool
  | CmdResult.success _ _ => true
  | _ => false

/-- Environment of one loop iteration of main in src/sync.py: what the
filesystem, the network, chmod, the subprocess calls, and the profile
scan would answer. -/
structure EntryEnv where
  destLExists : Bool
  fetchOk : Bool
  fetchErr : String
  chmodRaises : Bool
  chmodErr : String
  statMode : Nat
  cmdResults : Nat → CmdResult
  sourced : Bool

/-- Embedding of the chmod call of main in src/sync.py: the new mode is
the old one with the stat constants S_IEXEC, S_IXGRP and S_IXOTH (octal
100, 10 and 1) bitwise-or-ed in. -/
def chmodMode (m : Nat) : Nat :=
  m ||| 64 ||| 8 ||| 1

/-- Shared head of every per-task failure message of main in
src/sync.py. -/
def taskTag (i n : Nat) : String :=
  "FAILED on task " ++ toString (i + 1) ++ "/" ++ toString n ++ ": "

/-- Wraps a string in single quotes as the f-strings of main do. -/
def quoteStr (s : String) : String :=
  "\x27" ++ s ++ "\x27"

/-- Captured output of a failed command as formatted by main in
src/sync.py: stderr and stdout are stripped, joined by a newline, and the
join is stripped again. -/
def stripJoinOutput (stdout stderr : String) : String :=
  pyStrip (pyStrip stderr ++ "\n" ++ pyStrip stdout)

/-- Rendering of the effective timeout inside the timeout failure
message. -/
def timeoutText : Option Int → String
  | Option.none => "None"
  | some k => toString k

/-- Failure message produced by main in src/sync.py for the i-th (zero
based) of n commands; the success constructor never reaches this point
and maps to the empty string. -/
def cmdFailMsg (i n : Nat) (c : String) (t : Option Int) : CmdResult → String
  | CmdResult.success _ _ => ""
  | CmdResult.exitFail rc stdout stderr =>
      taskTag i n ++ quoteStr c ++ " (exit " ++ toString rc ++ "). Output: " ++
        stripJoinOutput stdout stderr
  | CmdResult.notFound =>
      taskTag i n ++ "command not found: " ++ quoteStr ((pySplitWs c).headD "")
  | CmdResult.timedOut =>
      taskTag i n ++ quoteStr c ++ " timed out after " ++ timeoutText t ++ " seconds"
  | CmdResult.otherErr emsg =>
      taskTag i n ++ quoteStr c ++ " encountered an error: " ++ emsg

/-- Embedding of the run-after loop of main in src/sync.py: commands run
in order from index i, each success appends a ran note to the message,
the first failure replaces the message and stops the loop; the third
component counts the commands actually executed. -/
def runTasks (res : Nat → CmdResult) (t : Option Int) (n : Nat) :
    List String → Nat → String → Bool × String × Nat
  | [], _, msg => (true, msg, 0)
  | c :: rest, i, msg =>
    match res i with
    | CmdResult.success _ _ =>
      let r := runTasks res t n rest (i + 1) (msg ++ " (ran: " ++ quoteStr c ++ ")")
      (r.1, r.2.1, r.2.2 + 1)
    | fr => (false, cmdFailMsg i n c t fr, 1)

/-- Embedding of the skip test of main in src/sync.py (line 231): skip
when reinstall is not forced, the entry is idempotent, and its path is
recorded in the loaded state. -/
def shouldSkip (e : Entry) (installed : Finset String) (reinstallForced : Bool) : Bool :=
  !reinstallForced && e.idempotent && decide (e.path ∈ installed)

/-- True on the two git-based source kinds, as tested by main before the
pre-dispatch removal. -/
def gitSource (s : String) : Bool :=
  (s = "git" : Bool) || (s = "git-with-submodules" : Bool)

/-- True on the four dispatchable source kinds of main. -/
def knownSource (s : String) : Bool :=
  (s = "repo" : Bool) || (s = "git" : Bool) ||
    (s = "git-with-submodules" : Bool) || (s = "external" : Bool)

/-- Embedding of the dispatch chain of main in src/sync.py: the fetch
outcome and message for each source kind, and an immediate failure with
the unknown-source message otherwise. -/
def dispatch (e : Entry) (env : EntryEnv) : Bool × String :=
  if e.source = "repo" then
    (env.fetchOk, if env.fetchOk then "fetched from repo" else "FAILED: " ++ env.fetchErr)
  else if e.source = "git" then
    (env.fetchOk, if env.fetchOk then "cloned " ++ e.url else "FAILED: " ++ env.fetchErr)
  else if e.source = "git-with-submodules" then
    (env.fetchOk,
      if env.fetchOk then "cloned " ++ e.url ++ " with submodules"
      else "FAILED: " ++ env.fetchErr)
  else if e.source = "external" then
    (env.fetchOk, if env.fetchOk then "downloaded " ++ e.url else "FAILED: " ++ env.fetchErr)
  else (false, "FAILED: Unknown source")

/-- Embedding of the make-executable block of main in src/sync.py: when
the fetch succeeded and exec is set, a chmod failure demotes the entry to
failure, a chmod success appends to the message and records the new
mode. -/
def chmodStep (env : EntryEnv) (execFlag ok0 : Bool) (msg0 : String) :
    Bool × String × Option Nat :=
  if ok0 && execFlag then
    if env.chmodRaises then
      (false, "FAILED: chmod failed - " ++ env.chmodErr, Option.none)
    else (ok0, msg0 ++ " (executable)", some (chmodMode env.statMode))
  else (ok0, msg0, Option.none)

/-- Embedding of the run-after block of main in src/sync.py: commands run
only when the entry is still successful and the key is present; full
success replaces the message by the completed-tasks summary. -/
def runAfterStep (e : Entry) (env : EntryEnv) (dt : Int) (ok1 : Bool) (msg1 : String) :
    Bool × String × Nat :=
  match e.runAfter with
  | Option.none => (ok1, msg1, 0)
  | some ra =>
    if ok1 then
      let cmds := normalizeRA ra
      let n := cmds.length
      let r := runTasks env.cmdResults (effTimeout e.timeout dt) n cmds 0 msg1
      if r.1 then (true, "all " ++ toString n ++ " tasks completed", r.2.2)
      else (false, r.2.1, r.2.2)
    else (ok1, msg1, 0)

/-- Side effects of one loop iteration, in execution order: pre-dispatch
removal of the destination, fetch dispatch (with its outcome), the chmod
call, and each executed post-install command. -/
inductive Effect where
  | removePre
  | fetch (kind : String) (ok : Bool)
  | chmod
  | runCmd (i : Nat)
  deriving DecidableEq

/-- Destination existence after one effect: removal clears it, a
successful fetch materializes it, a failed fetch and the remaining
effects leave it unchanged. -/
def destStep (b : Bool) : Effect → Bool
  | Effect.removePre => false
  | Effect.fetch _ fok => if fok then true else b
  | Effect.chmod => b
  | Effect.runCmd _ => b

/-- Destination existence after a trace of effects. -/
def destAfter (b : Bool) (l : List Effect) : Bool :=
  l.foldl destStep b

/-- Result of one loop iteration of main in src/sync.py. -/
structure StepResult where
  ok : Bool
  skipped : Bool
  msg : String
  newState : Finset String
  trace : List Effect
  okInc : Nat
  skipInc : Nat
  tasksRun : Nat
  newMode : Option Nat
  autostartPath : Option String

/-- Combined fetch and chmod phase of one iteration. -/
def chmodPhase (e : Entry) (env : EntryEnv) : Bool × String × Option Nat :=
  chmodStep env e.exec (dispatch e env).1 (dispatch e env).2

/-- Combined fetch, chmod and run-after phase of one iteration. -/
def postPhase (e : Entry) (env : EntryEnv) (dt : Int) : Bool × String × Nat :=
  runAfterStep e env dt (chmodPhase e env).1 (chmodPhase e env).2.1

/-- Embedding of one iteration of the entry loop of main in src/sync.py
(lines 227 to 341): decide the idempotent skip, remove a pre-existing
non-git destination, dispatch the fetch, apply the executable bit, run
the post-install commands, and update state, counters, and the autostart
queue. -/
def processEntry (home pfx : String) (dt : Int) (forced : Bool)
    (e : Entry) (env : EntryEnv) (st : Finset String) : StepResult :=
  if shouldSkip e st forced then
    { ok := true, skipped := true, msg := "already installed (idempotent)",
      newState := st, trace := [], okInc := 1, skipInc := 1, tasksRun := 0,
      newMode := Option.none, autostartPath := Option.none }
  else
    { ok := (postPhase e env dt).1
      skipped := false
      msg := (postPhase e env dt).2.1
      newState :=
        if (postPhase e env dt).1 then insert e.path st else st.erase e.path
      trace :=
        (if !(gitSource e.source) && env.destLExists then [Effect.removePre] else []) ++
        (if knownSource e.source then [Effect.fetch e.source env.fetchOk] else []) ++
        (if (dispatch e env).1 && e.exec then [Effect.chmod] else []) ++
        (List.range (postPhase e env dt).2.2).map Effect.runCmd
      okInc := if (postPhase e env dt).1 then 1 else 0
      skipInc := 0
      tasksRun := (postPhase e env dt).2.2
      newMode := (chmodPhase e env).2.2
      autostartPath :=
        if (postPhase e env dt).1 && e.autostart && !env.sourced then
          some (home_path home e.path pfx)
        else Option.none }

/-- The loaded manifest as consumed by main in src/sync.py. -/
structure Config where
  repoUrl : String
  branchName : String := "main"
  files : List Entry

/-- Environment of one whole run of main: the prefix directory situation,
whether the manifest loads, the state file content, the per-entry
environments, and whether the final save succeeds. -/
structure MainEnv where
  pfxExists : Bool
  makedirsOk : Bool
  configOk : Bool
  stateFile : StateFile
  entryEnvs : Nat → EntryEnv
  saveOk : Bool

/-- Observable outcome of one run of main. -/
structure MainOutcome where
  exitCode : Nat
  results : List StepResult
  finalState : Finset String
  instructions : List String

/-- The entry loop of main: processes the entries in manifest order,
threading the installation state. -/
def runEntries (home pfx : String) (dt : Int) (forced : Bool)
    (envs : Nat → EntryEnv) : List Entry → Nat → Finset String →
    List StepResult × Finset String
  | [], _, st => ([], st)
  | e :: rest, i, st =>
    let r := processEntry home pfx dt forced e (envs i) st
    let rec2 := runEntries home pfx dt forced envs rest (i + 1) r.newState
    (r :: rec2.1, rec2.2)

/-- Embedding of main in src/sync.py: exit 1 when the prefix directory is
absent and cannot be created, exit 1 when the manifest fails to load,
otherwise run every entry, collect the deferred autostart instructions,
and exit 0. -/
def runMain (home pfx : String) (dt : Int) (forced : Bool)
    (cfg : Config) (env : MainEnv) : MainOutcome :=
  if !env.pfxExists && !env.makedirsOk then
    { exitCode := 1, results := [], finalState := (∅ : Finset String), instructions := [] }
  else
    let st0 := loadState env.stateFile
    if !env.configOk then
      { exitCode := 1, results := [], finalState := st0, instructions := [] }
    else
      let rs := runEntries home pfx dt forced env.entryEnvs cfg.files 0 st0
      { exitCode := 0, results := rs.1, finalState := rs.2,
        instructions := rs.1.filterMap StepResult.autostartPath }

/-- A command oracle where every command succeeds with empty output. -/
def allCmdsOk : Nat → CmdResult := fun _ => CmdResult.success "" ""

/-- Baseline per-entry environment for concrete instantiations: no
pre-existing destination, successful fetch, quiet chmod, succeeding
commands, script already sourced. -/
def envOkBase : EntryEnv :=
  { destLExists := false, fetchOk := true, fetchErr := "", chmodRaises := false,
    chmodErr := "", statMode := 420, cmdResults := allCmdsOk, sourced := true }

/-- Environment whose fetch fails. -/
def envFetchFail : EntryEnv :=
  { envOkBase with destLExists := true, fetchOk := false, fetchErr := "boom" }

/-- Environment whose chmod call raises. -/
def envChmodRaise : EntryEnv :=
  { envOkBase with chmodRaises := true, chmodErr := "denied" }

/-- Environment whose first command exits with status 2. -/
def envCmdFail : EntryEnv :=
  { envOkBase with cmdResults := fun _ => CmdResult.exitFail 2 "out" "err" }

/-- An idempotent repo entry. -/
def eIdem : Entry := { path := "p", idempotent := true }

/-- A plain repo entry. -/
def eRepo : Entry := { path := "p" }

/-- A repo entry requesting the executable bit. -/
def eExec : Entry := { path := "p", exec := true }

/-- A repo entry with two post-install commands. -/
def eRun : Entry := { path := "p", runAfter := some (RunAfterVal.many ["a b", "c"]) }

/-- Profile filesystem holding a single three-token sourcing line that
resolves to the target. -/
def fsThreeTok : ProfileFS :=
  { profExists := fun n => (n = ".bashrc" : Bool)
    readable := fun _ => true
    profLines := fun n => if n = ".bashrc" then ["source /t extra"] else []
    canon := fun p => if p = "/t" then some "/T" else Option.none }

/-- An empty manifest. -/
def cfgEmpty : Config := { repoUrl := "u", files := [] }

/-- A manifest with one plain repo entry. -/
def cfgOne : Config := { repoUrl := "u", files := [eRepo] }

/-- Run environment where the prefix directory is absent and cannot be
created, but the manifest loads. -/
def envPfxFail : MainEnv :=
  { pfxExists := false, makedirsOk := false, configOk := true,
    stateFile := StateFile.missing, entryEnvs := fun _ => envOkBase, saveOk := true }

/-- Run environment where everything structural succeeds. -/
def envMainOk : MainEnv :=
  { pfxExists := true, makedirsOk := true, configOk := true,
    stateFile := StateFile.missing, entryEnvs := fun _ => envOkBase, saveOk := true }

/-- Run environment where the single entry of the manifest fails its
fetch. -/
def envMainEntryFail : MainEnv :=
  { envMainOk with entryEnvs := fun _ => envFetchFail }

/-- When the needle heads the list, replacing its first occurrence keeps
exactly the tail after the replacement text. -/
theorem replaceFirstChar_head (c : Char) (xs r : List Char) :
    replaceFirstChar (c :: xs) c r = r ++ xs := by
  simp [replaceFirstChar]

/-- A string starting with the one-character tilde string has the tilde
character at the head of its character list. -/
theorem startsWith_tilde_data (p : String) (h : pyStartswith p "~" = true) :
    p.data.head? = some tildeChar := by
  unfold pyStartswith at h
  have hd : ("~" : String).data = [tildeChar] := by decide
  rw [hd] at h
  cases hp : p.data with
  | nil => rw [hp] at h; simp [List.isPrefixOf] at h
  | cons a as =>
    rw [hp] at h
    simp [List.isPrefixOf] at h
    simp [h.symm]

/-- Claim C10: destination resolution.  A tilde-headed manifest path has
only its first tilde replaced by the expanded prefix; an absolute path is
returned unchanged whatever the prefix; any other path is joined under
the expanded prefix. -/
theorem home_path_resolution (home pfx p : String) :
    (pyStartswith p "~" = true →
      (home_path home p pfx).data = (expanduser home pfx).data ++ p.data.tail) ∧
    (pyStartswith p "~" = false → os_isabs p = true →
      ∀ q, home_path home p q = p) ∧
    (pyStartswith p "~" = false → os_isabs p = false →
      home_path home p pfx = posixJoin (expanduser home pfx) p) := by
  refine ⟨?_, ?_, ?_⟩
  · intro h
    have hh := startsWith_tilde_data p h
    unfold home_path
    rw [if_pos h]
    cases hp : p.data with
    | nil => rw [hp] at hh; simp at hh
    | cons a as =>
      rw [hp] at hh
      simp at hh
      subst hh
      rw [replaceFirstChar_head]
      simp
  · intro h1 h2 q
    unfold home_path
    rw [if_neg (by simp [h1]), if_neg (by simp [h2])]
  · intro h1 h2
    unfold home_path
    rw [if_neg (by simp [h1]), if_pos (by simp [h2])]

/-- Witness for the destination resolution theorem at concrete inputs. -/
theorem home_path_resolution_witness :
    pyStartswith "~/x" "~" = true ∧
    (home_path "/h" "~/x" "~").data = (expanduser "/h" "~").data ++ ("~/x" : String).data.tail := by
  refine ⟨by decide, (home_path_resolution "/h" "~" "~/x").1 (by decide)⟩

/-- A known source kind is one of the four dispatchable strings. -/
theorem knownSource_cases (s : String) (h : knownSource s = true) :
    s = "repo" ∨ s = "git" ∨ s = "git-with-submodules" ∨ s = "external" := by
  simpa [knownSource, or_assoc] using h

/-- On a known source kind the dispatch outcome is the fetch outcome of
the environment. -/
theorem dispatch_fst_known (e : Entry) (env : EntryEnv)
    (h : knownSource e.source = true) : (dispatch e env).1 = env.fetchOk := by
  rcases knownSource_cases e.source h with h1 | h1 | h1 | h1 <;>
    simp [dispatch, h1]

/-- On an unknown source kind the dispatch outcome is failure. -/
theorem dispatch_fst_unknown (e : Entry) (env : EntryEnv)
    (h : knownSource e.source = false) : (dispatch e env).1 = false := by
  simp [knownSource] at h
  obtain ⟨⟨⟨h1, h2⟩, h3⟩, h4⟩ := h
  simp [dispatch, h1, h2, h3, h4]

/-- A failed earlier phase passes through the chmod step unchanged. -/
theorem chmodStep_false (env : EntryEnv) (ex : Bool) (msg : String) :
    chmodStep env ex false msg = (false, msg, Option.none) := by
  simp [chmodStep]

/-- A failed earlier phase passes through the run-after step unchanged. -/
theorem runAfterStep_false (e : Entry) (env : EntryEnv) (dt : Int) (msg : String) :
    runAfterStep e env dt false msg = (false, msg, 0) := by
  cases h : e.runAfter <;> simp [runAfterStep, h]

/-- Claim C4: the installation-state store round-trips, and a missing or
unparsable store loads as the empty set. -/
theorem state_roundtrip (s : Finset String) :
    loadState (saveState s) = s ∧
    loadState StateFile.missing = (∅ : Finset String) ∧
    loadState StateFile.unparsable = (∅ : Finset String) := by
  refine ⟨?_, rfl, rfl⟩
  simp [loadState, saveState, Finset.sort_toFinset]

/-- Witness for the state round-trip at a concrete one-element set. -/
theorem state_roundtrip_witness :
    loadState (saveState ({"a"} : Finset String)) = ({"a"} : Finset String) :=
  (state_roundtrip ({"a"} : Finset String)).1

/-- Claim C6: a git destination holding a working copy is fetched and
hard-reset to the origin branch with no directory deletion, while a fresh
destination receives a depth-one shallow clone of the branch. -/
theorem git_update_in_place (url target b : String) (sub : Bool) :
    (fetch_from_git url target b sub true true =
        [GitAction.fetchRemote, GitAction.hardReset ("origin/" ++ b)] ++
          (if sub then [GitAction.submoduleUpdate] else [])) ∧
    (GitAction.rmTree ∉ fetch_from_git url target b sub true true) ∧
    (∀ hg, fetch_from_git url target b sub false hg =
      [GitAction.cloneShallow url b 1 sub]) := by
  refine ⟨by simp [fetch_from_git], ?_, ?_⟩
  · cases sub <;> simp [fetch_from_git]
  · intro hg
    simp [fetch_from_git]

/-- Witness for the git update-in-place theorem at concrete inputs. -/
theorem git_update_in_place_witness :
    fetch_from_git "u" "/d" "main" false true true =
      [GitAction.fetchRemote, GitAction.hardReset "origin/main"] :=
  (git_update_in_place "u" "/d" "main" false).1


/-- Bit i of the owner-execute constant. -/
theorem testBit_c64 (i : Nat) : (64 : Nat).testBit i = decide (6 = i) := by
  have h : (64 : Nat) = 2 ^ 6 := by norm_num
  rw [h, Nat.testBit_two_pow]

/-- Bit i of the group-execute constant. -/
theorem testBit_c8 (i : Nat) : (8 : Nat).testBit i = decide (3 = i) := by
  have h : (8 : Nat) = 2 ^ 3 := by norm_num
  rw [h, Nat.testBit_two_pow]

/-- Bit i of the other-execute constant. -/
theorem testBit_c1 (i : Nat) : (1 : Nat).testBit i = decide (0 = i) := by
  have h : (1 : Nat) = 2 ^ 0 := by norm_num
  rw [h, Nat.testBit_two_pow]

/-- Claim C5: the permission change is additive.  The mode passed to
chmod has the three execute bits set and every other bit equal to the old
mode; a quiet chmod records exactly that mode, and a chmod failure
demotes an entry whose fetch succeeded to failure. -/
theorem exec_bits_additive (m : Nat) (home pfx : String) (dt : Int) (forced : Bool)
    (e : Entry) (env : EntryEnv) (st : Finset String)
    (hskip : shouldSkip e st forced = false)
    (hknown : knownSource e.source = true)
    (hfetch : env.fetchOk = true)
    (hexec : e.exec = true) :
    ((chmodMode m).testBit 6 = true ∧ (chmodMode m).testBit 3 = true ∧
      (chmodMode m).testBit 0 = true ∧
      ∀ i, i ≠ 6 → i ≠ 3 → i ≠ 0 → (chmodMode m).testBit i = m.testBit i) ∧
    (env.chmodRaises = false →
      (processEntry home pfx dt forced e env st).newMode = some (chmodMode env.statMode)) ∧
    (env.chmodRaises = true →
      (processEntry home pfx dt forced e env st).ok = false) := by
  have hd : (dispatch e env).1 = true := by
    rw [dispatch_fst_known e env hknown, hfetch]
  refine ⟨⟨?_, ?_, ?_, ?_⟩, ?_, ?_⟩
  · simp [chmodMode, testBit_c64]
  · simp [chmodMode, testBit_c8]
  · simp [chmodMode, testBit_c1]
  · intro i h6 h3 h0
    have d6 : decide (6 = i) = false := decide_eq_false fun h => h6 h.symm
    have d3 : decide (3 = i) = false := decide_eq_false fun h => h3 h.symm
    have d0 : decide (0 = i) = false := decide_eq_false fun h => h0 h.symm
    simp [chmodMode, testBit_c64, testBit_c8, testBit_c1, d6, d3, d0]
  · intro hq
    simp [processEntry, hskip, chmodPhase, chmodStep, hd, hexec, hq]
  · intro hq
    have hc : (chmodPhase e env).1 = false := by
      simp [chmodPhase, chmodStep, hd, hexec, hq]
    simp [processEntry, hskip, postPhase, hc, runAfterStep_false]

/-- Witness for the additive permission change at concrete inputs. -/
theorem exec_bits_additive_witness :
    shouldSkip eExec (∅ : Finset String) false = false ∧
    (chmodMode 420).testBit 6 = true ∧
    (processEntry "/h" "~" 120 false eExec envChmodRaise (∅ : Finset String)).ok = false := by
  refine ⟨by decide, ?_, ?_⟩
  · exact (exec_bits_additive 420 "/h" "~" 120 false eExec envChmodRaise
      (∅ : Finset String) (by decide) (by decide) (by decide) (by decide)).1.1
  · exact (exec_bits_additive 420 "/h" "~" 120 false eExec envChmodRaise
      (∅ : Finset String) (by decide) (by decide) (by decide) (by decide)).2.2 (by decide)


/-- Run-after loop, first-failure shape: when the commands before index k
succeed and the command at k fails, the loop stops after executing k + 1
commands and returns the failure message of command k. -/
theorem runTasks_firstFail (res : Nat → CmdResult) (t : Option Int) (n : Nat) :
    ∀ (cmds : List String) (k i : Nat) (msg : String), k < cmds.length →
    (∀ j, j < k → isSuccess (res (i + j)) = true) →
    isSuccess (res (i + k)) = false →
    runTasks res t n cmds i msg =
      (false, cmdFailMsg (i + k) n (cmds.getD k "") t (res (i + k)), k + 1) := by
  intro cmds
  induction cmds with
  | nil => intro k i msg hk _ _; simp at hk
  | cons c rest ih =>
    intro k i msg hk hpre hfail
    cases k with
    | zero =>
      have hf : isSuccess (res i) = false := by simpa using hfail
      cases hres : res i with
      | success a b => rw [hres] at hf; simp [isSuccess] at hf
      | exitFail rc so se => simp [runTasks, hres]
      | notFound => simp [runTasks, hres]
      | timedOut => simp [runTasks, hres]
      | otherErr em => simp [runTasks, hres]
    | succ k0 =>
      have h0 : isSuccess (res i) = true := by simpa using hpre 0 (Nat.succ_pos k0)
      cases hres : res i with
      | success a b =>
        have hk0 : k0 < rest.length := by simpa using hk
        have hpre0 : ∀ j, j < k0 → isSuccess (res (i + 1 + j)) = true := by
          intro j hj
          have heq : i + 1 + j = i + (j + 1) := by omega
          rw [heq]
          exact hpre (j + 1) (by omega)
        have hfail0 : isSuccess (res (i + 1 + k0)) = false := by
          have heq : i + 1 + k0 = i + (k0 + 1) := by omega
          rw [heq]; exact hfail
        have hr := ih k0 (i + 1) (msg ++ " (ran: " ++ quoteStr c ++ ")") hk0 hpre0 hfail0
        have heq : i + 1 + k0 = i + (k0 + 1) := by omega
        rw [heq] at hr
        simp [runTasks, hres, hr]
      | exitFail rc so se => rw [hres] at h0; simp [isSuccess] at h0
      | notFound => rw [hres] at h0; simp [isSuccess] at h0
      | timedOut => rw [hres] at h0; simp [isSuccess] at h0
      | otherErr em => rw [hres] at h0; simp [isSuccess] at h0

/-- Run-after loop, all-success shape: when every command succeeds the
loop reports success and executes every command. -/
theorem runTasks_allOk (res : Nat → CmdResult) (t : Option Int) (n : Nat) :
    ∀ (cmds : List String) (i : Nat) (msg : String),
    (∀ j, j < cmds.length → isSuccess (res (i + j)) = true) →
    (runTasks res t n cmds i msg).1 = true ∧
    (runTasks res t n cmds i msg).2.2 = cmds.length := by
  intro cmds
  induction cmds with
  | nil => intro i msg _; simp [runTasks]
  | cons c rest ih =>
    intro i msg h
    have h0 : isSuccess (res i) = true := by simpa using h 0 (by simp)
    cases hres : res i with
    | success a b =>
      have hr := ih (i + 1) (msg ++ " (ran: " ++ quoteStr c ++ ")") (by
        intro j hj
        have heq : i + 1 + j = i + (j + 1) := by omega
        rw [heq]
        exact h (j + 1) (by simpa using Nat.succ_lt_succ hj))
      simp [runTasks, hres, hr.1, hr.2]
    | exitFail rc so se => rw [hres] at h0; simp [isSuccess] at h0
    | notFound => rw [hres] at h0; simp [isSuccess] at h0
    | timedOut => rw [hres] at h0; simp [isSuccess] at h0
    | otherErr em => rw [hres] at h0; simp [isSuccess] at h0

/-- When fetch and chmod both went through, the combined fetch and chmod
phase is successful. -/
theorem chmodPhase_fst_true (e : Entry) (env : EntryEnv)
    (hknown : knownSource e.source = true)
    (hfetch : env.fetchOk = true)
    (hchmod : e.exec = true → env.chmodRaises = false) :
    (chmodPhase e env).1 = true := by
  have hd : (dispatch e env).1 = true := by
    rw [dispatch_fst_known e env hknown, hfetch]
  cases hx : e.exec with
  | true => simp [chmodPhase, chmodStep, hd, hx, hchmod hx]
  | false => simp [chmodPhase, chmodStep, hd, hx]


/-- Claim C3: post-install command handling.  With a successful fetch and
executable step, if the commands before index k succeed and command k
fails, the entry fails, exactly k + 1 commands were executed (the later
ones never run), and the message is the failure message of command k,
which carries its one-based index out of the total, its exit code or
failure reason, and its trimmed captured output; if instead every command
succeeds, the entry succeeds and its message becomes the completed-tasks
summary. -/
theorem run_after_first_failure (home pfx : String) (dt : Int) (forced : Bool)
    (e : Entry) (env : EntryEnv) (st : Finset String) (cmds : List String) (k : Nat)
    (hskip : shouldSkip e st forced = false)
    (hknown : knownSource e.source = true)
    (hfetch : env.fetchOk = true)
    (hchmod : e.exec = true → env.chmodRaises = false)
    (hra : Option.map normalizeRA e.runAfter = some cmds) :
    ((k < cmds.length → (∀ j, j < k → isSuccess (env.cmdResults j) = true) →
        isSuccess (env.cmdResults k) = false →
        (processEntry home pfx dt forced e env st).ok = false ∧
        (processEntry home pfx dt forced e env st).tasksRun = k + 1 ∧
        (processEntry home pfx dt forced e env st).msg =
          cmdFailMsg k cmds.length (cmds.getD k "") (effTimeout e.timeout dt)
            (env.cmdResults k)) ∧
      ((∀ j, j < cmds.length → isSuccess (env.cmdResults j) = true) →
        (processEntry home pfx dt forced e env st).ok = true ∧
        (processEntry home pfx dt forced e env st).tasksRun = cmds.length ∧
        (processEntry home pfx dt forced e env st).msg =
          "all " ++ toString cmds.length ++ " tasks completed")) := by
  have hok1 : (chmodPhase e env).1 = true := chmodPhase_fst_true e env hknown hfetch hchmod
  obtain ⟨ra, hra1, hra2⟩ := Option.map_eq_some'.mp hra
  constructor
  · intro hk hpre hfail
    have hrt := runTasks_firstFail env.cmdResults (effTimeout e.timeout dt) cmds.length
      cmds k 0 (chmodPhase e env).2.1 hk (by simpa using hpre) (by simpa using hfail)
    simp only [Nat.zero_add] at hrt
    have hpost : postPhase e env dt =
        (false, cmdFailMsg k cmds.length (cmds.getD k "") (effTimeout e.timeout dt)
          (env.cmdResults k), k + 1) := by
      simp only [postPhase, hok1, runAfterStep, hra1, hra2, if_true]
      rw [hrt]
      simp
    simp [processEntry, hskip, hpost]
  · intro hall
    have hrt := runTasks_allOk env.cmdResults (effTimeout e.timeout dt) cmds.length
      cmds 0 (chmodPhase e env).2.1 (by simpa using hall)
    have hpost : postPhase e env dt =
        (true, "all " ++ toString cmds.length ++ " tasks completed",
          (runTasks env.cmdResults (effTimeout e.timeout dt) cmds.length cmds 0
            (chmodPhase e env).2.1).2.2) := by
      simp only [postPhase, hok1, runAfterStep, hra1, hra2, if_true]
      rw [if_pos hrt.1]
    simp [processEntry, hskip, hpost, hrt.2]

/-- Witness for the post-install failure handling at concrete inputs:
the first of two commands exits with status 2 and the entry fails with
the formatted message. -/
theorem run_after_first_failure_witness :
    (processEntry "/h" "~" 120 false eRun envCmdFail (∅ : Finset String)).ok = false ∧
    (processEntry "/h" "~" 120 false eRun envCmdFail (∅ : Finset String)).tasksRun = 1 ∧
    (processEntry "/h" "~" 120 false eRun envCmdFail (∅ : Finset String)).msg =
      "FAILED on task 1/2: \x27a b\x27 (exit 2). Output: err\nout" := by
  have h := (run_after_first_failure "/h" "~" 120 false eRun envCmdFail
    (∅ : Finset String) ["a b", "c"] 0 (by decide) (by decide) (by decide)
    (fun h => by decide) (by simp [eRun, normalizeRA])).1
    (by decide) (fun j hj => absurd hj (Nat.not_lt_zero j)) (by decide)
  refine ⟨h.1, h.2.1, ?_⟩
  rw [h.2.2]
  decide


/-- Claim C1: the idempotent skip.  An entry is processed with no side
effect at all (empty effect trace) while still counted successful exactly
when reinstall is not forced, the entry is idempotent, and its path is in
the loaded state; and the skip flag agrees with the shouldSkip test. -/
theorem skip_iff_state_member (home pfx : String) (dt : Int) (forced : Bool)
    (e : Entry) (env : EntryEnv) (st : Finset String) :
    (processEntry home pfx dt forced e env st).skipped = shouldSkip e st forced ∧
    (((processEntry home pfx dt forced e env st).trace = [] ∧
        (processEntry home pfx dt forced e env st).okInc = 1) ↔
      (forced = false ∧ e.idempotent = true ∧ e.path ∈ st)) := by
  cases h : shouldSkip e st forced with
  | true =>
    obtain ⟨⟨hf, hi⟩, hm⟩ : (forced = false ∧ e.idempotent = true) ∧ e.path ∈ st := by
      simpa [shouldSkip] using h
    simp [processEntry, h]
    exact ⟨hf, hi, hm⟩
  | false =>
    have h2 : ¬(forced = false ∧ e.idempotent = true ∧ e.path ∈ st) := by
      intro hc
      simp [shouldSkip, hc.1, hc.2.1, hc.2.2] at h
    refine ⟨by simp [processEntry, h], ?_, fun hc => absurd hc h2⟩
    rintro ⟨ht, hoinc⟩
    exfalso
    cases hks : knownSource e.source with
    | true => simp [processEntry, h, hks] at ht
    | false =>
      have hd := dispatch_fst_unknown e env hks
      have hcp : (chmodPhase e env).1 = false := by
        simp [chmodPhase, hd, chmodStep_false]
      have hpp : (postPhase e env dt).1 = false := by
        simp [postPhase, hcp, runAfterStep_false]
      simp [processEntry, h, hpp] at hoinc

/-- Witness for the idempotent skip at concrete inputs: an idempotent
entry whose path is recorded is skipped with an empty trace. -/
theorem skip_iff_state_member_witness :
    (processEntry "/h" "~" 120 false eIdem envOkBase ({"p"} : Finset String)).trace = [] ∧
    (processEntry "/h" "~" 120 false eIdem envOkBase ({"p"} : Finset String)).okInc = 1 :=
  (skip_iff_state_member "/h" "~" 120 false eIdem envOkBase ({"p"} : Finset String)).2.mpr
    ⟨rfl, rfl, by decide⟩

/-- Claim C2: the installation-state invariant.  After one entry is
processed the new state is the old one on a skip, the old one plus the
path on success, the old one minus the path on failure; and in every case
the path is a member of the new state exactly when the outcome was
success. -/
theorem state_membership_tracks_outcome (home pfx : String) (dt : Int) (forced : Bool)
    (e : Entry) (env : EntryEnv) (st : Finset String) :
    (processEntry home pfx dt forced e env st).newState =
      (if (processEntry home pfx dt forced e env st).skipped then st
       else if (processEntry home pfx dt forced e env st).ok then insert e.path st
       else st.erase e.path) ∧
    (e.path ∈ (processEntry home pfx dt forced e env st).newState ↔
      (processEntry home pfx dt forced e env st).ok = true) := by
  cases h : shouldSkip e st forced with
  | true =>
    obtain ⟨⟨hf, hi⟩, hm⟩ : (forced = false ∧ e.idempotent = true) ∧ e.path ∈ st := by
      simpa [shouldSkip] using h
    simp [processEntry, h, hm]
  | false =>
    cases hp : (postPhase e env dt).1 with
    | true => simp [processEntry, h, hp]
    | false => simp [processEntry, h, hp]

/-- Witness for the state invariant at concrete inputs: a failed fetch
removes the path from the state. -/
theorem state_membership_tracks_outcome_witness :
    (processEntry "/h" "~" 120 false eRepo envFetchFail ({"p"} : Finset String)).newState =
      (if (processEntry "/h" "~" 120 false eRepo envFetchFail ({"p"} : Finset String)).skipped
        then ({"p"} : Finset String)
       else if (processEntry "/h" "~" 120 false eRepo envFetchFail ({"p"} : Finset String)).ok
        then insert "p" ({"p"} : Finset String)
       else ({"p"} : Finset String).erase "p") :=
  (state_membership_tracks_outcome "/h" "~" 120 false eRepo envFetchFail
    ({"p"} : Finset String)).1


/-- Claim C7: pre-dispatch removal.  For a non-skipped entry of a non-git
source kind with an existing destination, the removal is the first effect
of the iteration; when the fetch then fails nothing else runs, so the
destination ends the iteration removed; and git source kinds never
perform the pre-dispatch removal. -/
theorem pre_dispatch_removal (home pfx : String) (dt : Int) (forced : Bool)
    (e : Entry) (env : EntryEnv) (st : Finset String)
    (hskip : shouldSkip e st forced = false) :
    (gitSource e.source = false → env.destLExists = true →
      (processEntry home pfx dt forced e env st).trace.head? = some Effect.removePre) ∧
    (gitSource e.source = false → knownSource e.source = true →
      env.destLExists = true → env.fetchOk = false →
      (processEntry home pfx dt forced e env st).trace =
        [Effect.removePre, Effect.fetch e.source false] ∧
      destAfter env.destLExists (processEntry home pfx dt forced e env st).trace = false) ∧
    (gitSource e.source = true →
      Effect.removePre ∉ (processEntry home pfx dt forced e env st).trace) := by
  refine ⟨?_, ?_, ?_⟩
  · intro hg hde
    simp [processEntry, hskip, hg, hde]
  · intro hg hk hde hf
    have hd : (dispatch e env).1 = false := by
      rw [dispatch_fst_known e env hk, hf]
    have hcp : (chmodPhase e env).1 = false := by
      simp [chmodPhase, hd, chmodStep_false]
    have hpp : postPhase e env dt = (false, (chmodPhase e env).2.1, 0) := by
      simp [postPhase, hcp, runAfterStep_false]
    constructor
    · simp [processEntry, hskip, hg, hde, hk, hd, hf, hpp]
    · simp [processEntry, hskip, hg, hde, hk, hd, hf, hpp, destAfter, destStep]
  · intro hg hmem
    simp only [processEntry, hskip, Bool.false_eq_true, if_false] at hmem
    rw [hg] at hmem
    simp only [List.mem_append, List.mem_map] at hmem
    split_ifs at hmem <;> simp_all

/-- Witness for the pre-dispatch removal at concrete inputs: a repo
entry over an existing destination whose fetch fails leaves only the
removal and the failed fetch in the trace, and the destination gone. -/
theorem pre_dispatch_removal_witness :
    (processEntry "/h" "~" 120 false eRepo envFetchFail (∅ : Finset String)).trace =
      [Effect.removePre, Effect.fetch "repo" false] ∧
    destAfter envFetchFail.destLExists
      (processEntry "/h" "~" 120 false eRepo envFetchFail (∅ : Finset String)).trace = false := by
  have h := (pre_dispatch_removal "/h" "~" 120 false eRepo envFetchFail
    (∅ : Finset String) (by decide)).2.1 (by decide) (by decide) (by decide) (by decide)
  exact ⟨h.1, h.2⟩


/-- The per-line test of the source matches the spec text amended to
accept directives of two or more tokens. -/
theorem lineWired_eq_specMinTwo (canon : String → Option String) (ct l : String) :
    lineWired canon ct l = specLineMinTwo canon ct l := by
  by_cases h1 : pyStrip l = ""
  · simp [lineWired, specLineMinTwo, h1]
  · by_cases h2 : pyStartswith (pyStrip l) "#" = true
    · simp [lineWired, specLineMinTwo, h1, h2]
    · cases hp : pySplitWs (pyStrip l) with
      | nil => simp [lineWired, specLineMinTwo, h1, h2, hp]
      | cons t rest =>
        cases rest with
        | nil => simp [lineWired, specLineMinTwo, h1, h2, hp]
        | cons p2 rest2 =>
          by_cases h3 : (t = "source" ∨ t = ".")
          · cases hc : canon p2 with
            | none => simp [lineWired, specLineMinTwo, h1, h2, hp, h3, hc]
            | some c => simp [lineWired, specLineMinTwo, h1, h2, hp, h3, hc]
          · have h3a : ¬t = "source" := fun hx => h3 (Or.inl hx)
            have h3b : ¬t = "." := fun hx => h3 (Or.inr hx)
            simp [lineWired, specLineMinTwo, h1, h2, hp, h3a, h3b]

/-- Claim C8, amended: the autostart verifier.  The sourced check agrees
with the spec description once directives with two or more tokens are
accepted (first token source or dot, second token the path, canonical
equality, unreadable or missing profiles skipped); the per-entry
autostart queue entry exists exactly for a non-skipped successful
autostart entry that is not yet sourced; and the deferred instructions of
a run are exactly the queued paths of its results. -/
theorem sourced_check_refines_spec (fs : ProfileFS) (ct : String)
    (home pfx : String) (dt : Int) (forced : Bool) (e : Entry) (env : EntryEnv)
    (st : Finset String) (cfg : Config) (menv : MainEnv) :
    check_if_sourced fs ct = specWiredMinTwo fs ct ∧
    (processEntry home pfx dt forced e env st).autostartPath =
      (if !(processEntry home pfx dt forced e env st).skipped &&
          (processEntry home pfx dt forced e env st).ok &&
          e.autostart && !env.sourced
       then some (home_path home e.path pfx) else Option.none) ∧
    (runMain home pfx dt forced cfg menv).instructions =
      (runMain home pfx dt forced cfg menv).results.filterMap StepResult.autostartPath := by
  refine ⟨?_, ?_, ?_⟩
  · have hf : lineWired fs.canon ct = specLineMinTwo fs.canon ct :=
      funext fun l => lineWired_eq_specMinTwo fs.canon ct l
    simp only [check_if_sourced, specWiredMinTwo, hf]
  · cases h : shouldSkip e st forced <;> simp [processEntry, h]
  · by_cases h1 : (!menv.pfxExists && !menv.makedirsOk) = true
    · simp [runMain, h1]
    · by_cases h2 : (!menv.configOk) = true
      · simp [runMain, h1, h2]
      · simp [runMain, h1, h2]

/-- Counterexample to claim C8 as stated: a profile line with three
tokens wires the script in the source even though no two-token directive
exists, so the two-token reading of the spec disagrees with the code. -/
theorem two_token_mismatch :
    check_if_sourced fsThreeTok "/T" = true ∧
    specWiredTwoToken fsThreeTok "/T" = false := by
  constructor <;> decide

/-- The entry loop returns one result per manifest entry. -/
theorem runEntries_length (home pfx : String) (dt : Int) (forced : Bool)
    (envs : Nat → EntryEnv) :
    ∀ (es : List Entry) (i : Nat) (st : Finset String),
    (runEntries home pfx dt forced envs es i st).1.length = es.length := by
  intro es
  induction es with
  | nil => intro i st; simp [runEntries]
  | cons e rest ih => intro i st; simp [runEntries, ih]

/-- Claim C9, amended: a run never aborts on entry failures.  The exit
code is one exactly when the prefix directory is absent and cannot be
created or the manifest does not load, and zero otherwise whatever the
per-entry outcomes; and whenever the run reaches the loop it produces one
result per entry. -/
theorem run_never_aborted_exit (home pfx : String) (dt : Int) (forced : Bool)
    (cfg : Config) (env : MainEnv) :
    (runMain home pfx dt forced cfg env).exitCode =
      (if (!env.pfxExists && !env.makedirsOk) || !env.configOk then 1 else 0) ∧
    ((env.pfxExists || env.makedirsOk) = true → env.configOk = true →
      (runMain home pfx dt forced cfg env).results.length = cfg.files.length) := by
  cases hp : env.pfxExists <;> cases hm : env.makedirsOk <;> cases hc : env.configOk <;>
    simp [runMain, hp, hm, hc, runEntries_length]

/-- Witness for the amended exit-code theorem: a run whose single entry
fails its fetch still exits zero and processes the whole manifest. -/
theorem run_never_aborted_exit_witness :
    (runMain "/h" "~" 120 false cfgOne envMainEntryFail).exitCode = 0 ∧
    (runMain "/h" "~" 120 false cfgOne envMainEntryFail).results.length = 1 := by
  have h := run_never_aborted_exit "/h" "~" 120 false cfgOne envMainEntryFail
  refine ⟨by rw [h.1]; decide, ?_⟩
  have h2 := h.2 (by decide) (by decide)
  simpa [cfgOne] using h2

/-- Counterexample to claim C9 as stated: two runs over the same
loadable manifest differ in exit code because of the prefix directory,
so the exit code is not determined solely by configuration loading. -/
theorem exit_code_not_config_only :
    (runMain "/h" "~" 120 false cfgEmpty envPfxFail).exitCode = 1 ∧
    (runMain "/h" "~" 120 false cfgEmpty envMainOk).exitCode = 0 ∧
    envPfxFail.configOk = envMainOk.configOk := by
  refine ⟨rfl, rfl, rfl⟩

